import Mathlib

/-!
# Verification of the Circle-Lendo lending-circle contracts

Shallow embedding of the Solidity contracts `CreditRegistry`, `ReservePool`
and `LendingCircle` (files `CreditRegistry.sol`, `ReservePool.sol`,
`LendingCircle.sol`). Addresses are modelled as `Nat` (0 plays the role of
`address(0)`), `uint256` values as `Nat` with explicit saturating/guarded
subtraction exactly where the source guards it, and every fallible external
function as an `Option`-valued state transformer (a `none` result models a
reverted transaction, i.e. no state change). Solidity mappings are total
functions `Nat → _` whose default value is the zeroed struct, matching EVM
storage semantics.
-/

namespace CircleLendo

/-- Pointwise update of a mapping, modelling a Solidity storage write. -/
def fupd {α : Type} (f : Nat → α) (k : Nat) (v : α) : Nat → α :=
  fun x => if x = k then v else f x

/-! ## CreditRegistry (CreditRegistry.sol) -/
/-- `CreditRegistry.CreditProfile`. -/
structure CreditProfile where
  creditScore : Nat
  circlesJoined : Nat
  circlesCompleted : Nat
  onTimePayments : Nat
  latePayments : Nat
  defaults : Nat
  hasDefaulted : Bool
deriving DecidableEq

/-- The zeroed storage struct (Solidity default for an untouched mapping slot). -/
def CreditProfile.zero : CreditProfile :=
  ⟨0, 0, 0, 0, 0, 0, false⟩

/-- `CreditRegistry` contract storage. -/
structure CreditRegistry where
  creditProfiles : Nat → CreditProfile
  hasProfile : Nat → Bool

def BASE_CREDIT_SCORE : Nat := 300
def MAX_CREDIT_SCORE : Nat := 1000
def MIN_CREDIT_SCORE : Nat := 0
def ON_TIME_PAYMENT_BONUS : Nat := 10
def LATE_PAYMENT_PENALTY : Nat := 20
def DEFAULT_PENALTY : Nat := 100
def CIRCLE_COMPLETION_BONUS : Nat := 15

/-- Freshly deployed registry: all storage zeroed. -/
def CreditRegistry.init : CreditRegistry :=
  ⟨fun _ => CreditProfile.zero, fun _ => false⟩

/-- `CreditRegistry.getCreditScore`. -/
def CreditRegistry.getCreditScore (reg : CreditRegistry) (participant : Nat) : Nat :=
  if reg.hasProfile participant = false then BASE_CREDIT_SCORE
  else (reg.creditProfiles participant).creditScore

/-- `CreditRegistry._ensureProfile`. -/
def CreditRegistry.ensureProfile (reg : CreditRegistry) (participant : Nat) : CreditRegistry :=
  if reg.hasProfile participant = false then
    { reg with
      creditProfiles := fupd reg.creditProfiles participant
        ⟨BASE_CREDIT_SCORE, 0, 0, 0, 0, 0, false⟩
      hasProfile := fupd reg.hasProfile participant true }
  else reg

/-- `CreditRegistry.recordOnTimePayment`. -/
def CreditRegistry.recordOnTimePayment (reg : CreditRegistry) (participant : Nat) :
    CreditRegistry :=
  let reg := reg.ensureProfile participant
  let previousScore := (reg.creditProfiles participant).creditScore
  let p := reg.creditProfiles participant
  let p := { p with onTimePayments := p.onTimePayments + 1 }
  let newScore :=
    if previousScore + ON_TIME_PAYMENT_BONUS > MAX_CREDIT_SCORE then MAX_CREDIT_SCORE
    else previousScore + ON_TIME_PAYMENT_BONUS
  { reg with
    creditProfiles := fupd reg.creditProfiles participant
      { p with creditScore := newScore } }

/-- `CreditRegistry.recordLatePayment`. -/
def CreditRegistry.recordLatePayment (reg : CreditRegistry) (participant : Nat) :
    CreditRegistry :=
  let reg := reg.ensureProfile participant
  let previousScore := (reg.creditProfiles participant).creditScore
  let p := reg.creditProfiles participant
  let p := { p with latePayments := p.latePayments + 1 }
  let newScore :=
    if previousScore ≥ LATE_PAYMENT_PENALTY then previousScore - LATE_PAYMENT_PENALTY
    else MIN_CREDIT_SCORE
  { reg with
    creditProfiles := fupd reg.creditProfiles participant
      { p with creditScore := newScore } }

/-- `CreditRegistry.recordDefault`. -/
def CreditRegistry.recordDefault (reg : CreditRegistry) (participant : Nat) :
    CreditRegistry :=
  let reg := reg.ensureProfile participant
  let previousScore := (reg.creditProfiles participant).creditScore
  let p := reg.creditProfiles participant
  let p := { p with defaults := p.defaults + 1, hasDefaulted := true }
  let newScore :=
    if previousScore ≥ DEFAULT_PENALTY then previousScore - DEFAULT_PENALTY
    else MIN_CREDIT_SCORE
  { reg with
    creditProfiles := fupd reg.creditProfiles participant
      { p with creditScore := newScore } }

/-- `CreditRegistry.recordCircleCompletion`. -/
def CreditRegistry.recordCircleCompletion (reg : CreditRegistry) (participant : Nat) :
    CreditRegistry :=
  let reg := reg.ensureProfile participant
  let previousScore := (reg.creditProfiles participant).creditScore
  let p := reg.creditProfiles participant
  let p := { p with circlesCompleted := p.circlesCompleted + 1 }
  let newScore :=
    if previousScore + CIRCLE_COMPLETION_BONUS > MAX_CREDIT_SCORE then MAX_CREDIT_SCORE
    else previousScore + CIRCLE_COMPLETION_BONUS
  { reg with
    creditProfiles := fupd reg.creditProfiles participant
      { p with creditScore := newScore } }

/-- `CreditRegistry.recordCircleJoin`. -/
def CreditRegistry.recordCircleJoin (reg : CreditRegistry) (participant : Nat) :
    CreditRegistry :=
  let reg := reg.ensureProfile participant
  let p := reg.creditProfiles participant
  { reg with
    creditProfiles := fupd reg.creditProfiles participant
      { p with circlesJoined := p.circlesJoined + 1 } }

/-- One externally callable ledger mutation, with its target address. -/
inductive RegOp where
  | onTime (a : Nat)
  | late (a : Nat)
  | dflt (a : Nat)
  | completion (a : Nat)
  | join (a : Nat)
deriving DecidableEq

/-- Apply one ledger operation. -/
def applyRegOp (reg : CreditRegistry) : RegOp → CreditRegistry
  | .onTime a => reg.recordOnTimePayment a
  | .late a => reg.recordLatePayment a
  | .dflt a => reg.recordDefault a
  | .completion a => reg.recordCircleCompletion a
  | .join a => reg.recordCircleJoin a

/-- Apply a sequence of ledger operations, oldest first. -/
def applyRegOps (reg : CreditRegistry) : List RegOp → CreditRegistry
  | [] => reg
  | op :: rest => applyRegOps (applyRegOp reg op) rest

/-- Registry-wide score bound: every stored profile score is ≤ 1000. -/
def scoresBounded (reg : CreditRegistry) : Prop :=
  ∀ a, (reg.creditProfiles a).creditScore ≤ MAX_CREDIT_SCORE

/-! ### Permanence of `hasDefaulted`
`_ensureProfile` writes a fresh base profile only when `hasProfile` is still
false, and every score-mutating operation first runs `_ensureProfile`; hence a
recorded default (which sets both `hasProfile` and `hasDefaulted`) can never be
cleared by any later ledger operation. -/
/-- A participant with a recorded, profile-backed default. -/
def defaultRecorded (reg : CreditRegistry) (a : Nat) : Prop :=
  reg.hasProfile a = true ∧ (reg.creditProfiles a).hasDefaulted = true

/-! ## ReservePool (ReservePool.sol) -/
/-- `ReservePool` contract storage. -/
structure ReservePool where
  factory : Nat
  verifiedCircles : Nat → Bool
  totalDeposited : Nat
  totalWithdrawn : Nat
  currentBalance : Nat

/-- Freshly deployed pool: `factory = msg.sender`, everything else zeroed. -/
def ReservePool.mkPool (sender : Nat) : ReservePool :=
  ⟨sender, fun _ => false, 0, 0, 0⟩

/-- `ReservePool.verifyCircle` (`onlyFactory`). -/
def ReservePool.verifyCircle (pool : ReservePool) (sender circle : Nat) : Option ReservePool :=
  if sender ≠ pool.factory then none
  else if circle = 0 then none
  else some { pool with verifiedCircles := fupd pool.verifiedCircles circle true }

/-- `ReservePool.revokeCircle` (`onlyFactory`). -/
def ReservePool.revokeCircle (pool : ReservePool) (sender circle : Nat) : Option ReservePool :=
  if sender ≠ pool.factory then none
  else some { pool with verifiedCircles := fupd pool.verifiedCircles circle false }

/-- `ReservePool.deposit` (`onlyVerifiedCircle`, payable). -/
def ReservePool.deposit (pool : ReservePool) (sender value : Nat) : Option ReservePool :=
  if pool.verifiedCircles sender = false then none
  else if value = 0 then none
  else some { pool with
    totalDeposited := pool.totalDeposited + value
    currentBalance := pool.currentBalance + value }

/-- `ReservePool.withdraw` (`onlyVerifiedCircle`). -/
def ReservePool.withdraw (pool : ReservePool) (sender amount recipient : Nat) :
    Option ReservePool :=
  if pool.verifiedCircles sender = false then none
  else if amount = 0 then none
  else if recipient = 0 then none
  else if pool.currentBalance < amount then none
  else some { pool with
    currentBalance := pool.currentBalance - amount
    totalWithdrawn := pool.totalWithdrawn + amount }

/-- `ReservePool.receive` (direct value transfer; requires a verified sender). -/
def ReservePool.receiveValue (pool : ReservePool) (sender value : Nat) : Option ReservePool :=
  if pool.verifiedCircles sender = false then none
  else some { pool with
    totalDeposited := pool.totalDeposited + value
    currentBalance := pool.currentBalance + value }

/-- One externally callable ReservePool operation. -/
inductive PoolOp where
  | verify (sender circle : Nat)
  | revoke (sender circle : Nat)
  | deposit (sender value : Nat)
  | withdraw (sender amount recipient : Nat)
  | recv (sender value : Nat)
deriving DecidableEq

/-- Apply one pool operation; a failed (reverted) call leaves the state unchanged. -/
def applyPoolOp (pool : ReservePool) : PoolOp → ReservePool
  | .verify s c => (pool.verifyCircle s c).getD pool
  | .revoke s c => (pool.revokeCircle s c).getD pool
  | .deposit s v => (pool.deposit s v).getD pool
  | .withdraw s a r => (pool.withdraw s a r).getD pool
  | .recv s v => (pool.receiveValue s v).getD pool

/-- Apply a sequence of pool operations, oldest first. -/
def applyPoolOps (pool : ReservePool) : List PoolOp → ReservePool
  | [] => pool
  | op :: rest => applyPoolOps (applyPoolOp pool op) rest

/-- The flow-accounting invariant of ReservePool, stated without truncating
subtraction: the balance plus everything withdrawn equals everything deposited. -/
def poolInvariant (pool : ReservePool) : Prop :=
  pool.currentBalance + pool.totalWithdrawn = pool.totalDeposited

/-! ## LendingCircle (LendingCircle.sol)
The circle holds references to the registry and the reserve pool, so its
externally callable functions act on a `World` bundling all three contract
states plus the circle address itself (needed because the circle passes
`address(this)` to `ReservePool.withdraw`). Reverting calls return `none`.
The reentrancy lock `_locked` is not modelled: each model operation is one
atomic top-level call, and the only nested call back into the circle is its
`receive()` function, which the source leaves outside the lock. -/
inductive CircleStatus where
  | PENDING
  | ACTIVE
  | COMPLETED
  | CANCELLED
deriving DecidableEq

inductive ExcessDistributionMethod where
  | WITHDRAWABLE
  | AUTO_DEDUCT
deriving DecidableEq

def ETHER : Nat := 1000000000000000000
def MAX_CONTRIBUTION_PER_CREDIT : Nat := ETHER
def MAX_PARTICIPANTS_PER_CREDIT : Nat := 1
def MAX_EXPOSURE_PER_CREDIT : Nat := 10 * ETHER
def SEVEN_DAYS : Nat := 604800

/-- `LendingCircle.Participant`. -/
structure Participant where
  participant : Nat
  isActive : Bool
  hasReceivedPayout : Bool
  isInDefault : Bool
  withdrawableBalance : Nat
  monthlyPayments : Nat → Bool
  paymentTimestamp : Nat → Nat

/-- Zeroed storage struct for an untouched participant slot. -/
def Participant.zero : Participant :=
  ⟨0, false, false, false, 0, fun _ => false, fun _ => 0⟩

/-- `LendingCircle.Candidate`. -/
structure Candidate where
  candidate : Nat
  proposer : Nat
  totalVotes : Nat
  isActive : Bool
deriving DecidableEq

def Candidate.zero : Candidate := ⟨0, 0, 0, false⟩

/-- `LendingCircle.Vote`. -/
structure VoteRecord where
  voter : Nat
  candidate : Nat
  weight : Nat
  hasVoted : Bool
deriving DecidableEq

def VoteRecord.zero : VoteRecord := ⟨0, 0, 0, false⟩

/-- `LendingCircle.PayoutProposal`. -/
structure PayoutProposal where
  endTime : Nat
  executed : Bool
  winner : Nat
  candidates : Nat → Candidate
  candidateList : List Nat
  votes : Nat → VoteRecord
  voters : List Nat

def PayoutProposal.zero : PayoutProposal :=
  ⟨0, false, 0, fun _ => Candidate.zero, [], fun _ => VoteRecord.zero, []⟩

/-- `LendingCircle` contract storage. -/
structure Circle where
  creator : Nat
  coordinator : Nat
  monthlyContribution : Nat
  durationInMonths : Nat
  minParticipants : Nat
  maxParticipants : Nat
  reservePercentage : Nat
  excessDistributionMethod : ExcessDistributionMethod
  status : CircleStatus
  currentMonth : Nat
  totalParticipants : Nat
  poolBalance : Nat
  totalReserveDeposited : Nat
  participants : Nat → Participant
  participantList : List Nat
  payoutProposals : Nat → PayoutProposal
  votingPeriod : Nat

/-- The composed on-chain state a LendingCircle call can touch. -/
structure World where
  circleAddr : Nat
  circle : Circle
  registry : CreditRegistry
  pool : ReservePool

/-- `LendingCircle._getActiveParticipantCount`. -/
def getActiveParticipantCount (c : Circle) : Nat :=
  c.participantList.countP
    (fun a => (c.participants a).isActive && !(c.participants a).isInDefault)

/-- `LendingCircle` constructor.  The registry and pool are passed as model
values rather than addresses, so the two nonzero-address checks on them are
represented by the values themselves; every other `require` is kept in source
order. -/
def createCircle (creator mc dur minP maxP rp : Nat)
    (method : ExcessDistributionMethod) (reg : CreditRegistry) :
    Option (Circle × CreditRegistry) :=
  if creator = 0 then none
  else if mc = 0 then none
  else if dur = 0 then none
  else if minP < 2 then none
  else if maxP < minP then none
  else if 100 < rp then none
  else
    let creatorCredit := reg.getCreditScore creator
    if mc > creatorCredit * MAX_CONTRIBUTION_PER_CREDIT then none
    else if maxP > creatorCredit * MAX_PARTICIPANTS_PER_CREDIT then none
    else if mc * maxP * dur > creatorCredit * MAX_EXPOSURE_PER_CREDIT then none
    else
      let parts := fupd (fun _ => Participant.zero) creator
        { Participant.zero with participant := creator, isActive := true }
      let c : Circle :=
        { creator := creator
          coordinator := creator
          monthlyContribution := mc
          durationInMonths := dur
          minParticipants := minP
          maxParticipants := maxP
          reservePercentage := rp
          excessDistributionMethod := method
          status := CircleStatus.PENDING
          currentMonth := 0
          totalParticipants := 1
          poolBalance := 0
          totalReserveDeposited := 0
          participants := parts
          participantList := [creator]
          payoutProposals := fun _ => PayoutProposal.zero
          votingPeriod := SEVEN_DAYS }
      some (c, reg.recordCircleJoin creator)

/-- `LendingCircle.requestToJoin`. -/
def requestToJoin (sender : Nat) (w : World) : Option World :=
  let c := w.circle
  if c.status ≠ CircleStatus.PENDING then none
  else if ¬ c.totalParticipants < c.maxParticipants then none
  else if (c.participants sender).isActive then none
  else if sender = c.creator then none
  else
    let parts := fupd c.participants sender
      { c.participants sender with participant := sender }
    some { w with
      circle := { c with
        participants := parts
        participantList := c.participantList ++ [sender]
        totalParticipants := c.totalParticipants + 1 }
      registry := w.registry.recordCircleJoin sender }

/-- `LendingCircle.approveParticipant` (`onlyCoordinator`), including the
`_activateCircle` auto-transition. -/
def approveParticipant (sender p : Nat) (w : World) : Option World :=
  let c := w.circle
  if sender ≠ c.coordinator then none
  else if c.status ≠ CircleStatus.PENDING then none
  else if (c.participants p).participant ≠ p then none
  else if (c.participants p).isActive then none
  else
    let parts := fupd c.participants p { c.participants p with isActive := true }
    let c := { c with participants := parts }
    let c :=
      if c.totalParticipants ≥ c.minParticipants then { c with status := CircleStatus.ACTIVE }
      else c
    some { w with circle := c }

/-- `LendingCircle.recordLatePayment` (`onlyCoordinator onlyActiveCircle`). -/
def circleRecordLatePayment (sender p month : Nat) (w : World) : Option World :=
  let c := w.circle
  if sender ≠ c.coordinator then none
  else if c.status ≠ CircleStatus.ACTIVE then none
  else if (c.participants p).isActive = false then none
  else if (c.participants p).monthlyPayments month then none
  else
    let parts := fupd c.participants p
      { c.participants p with
        monthlyPayments := fupd (c.participants p).monthlyPayments month true }
    some { w with
      circle := { c with participants := parts }
      registry := w.registry.recordLatePayment p }

/-- `LendingCircle.recordDefault` (`onlyCoordinator onlyActiveCircle`). -/
def circleRecordDefault (sender p month : Nat) (w : World) : Option World :=
  let c := w.circle
  if sender ≠ c.coordinator then none
  else if c.status ≠ CircleStatus.ACTIVE then none
  else if (c.participants p).isActive = false then none
  else
    let parts := fupd c.participants p { c.participants p with isInDefault := true }
    some { w with
      circle := { c with participants := parts }
      registry := w.registry.recordDefault p }

/-- `LendingCircle.proposePayout` (`onlyActiveParticipant onlyActiveCircle`). -/
def proposePayout (sender candidate month now : Nat) (w : World) : Option World :=
  let c := w.circle
  if ¬ ((c.participants sender).isActive ∧ (c.participants sender).isInDefault = false) then none
  else if c.status ≠ CircleStatus.ACTIVE then none
  else if month ≠ c.currentMonth then none
  else if (c.participants candidate).isActive = false then none
  else if (c.participants candidate).hasReceivedPayout then none
  else if (c.participants candidate).isInDefault then none
  else
    let proposal := c.payoutProposals month
    let proposal :=
      if proposal.endTime = 0 then
        { proposal with endTime := now + c.votingPeriod, executed := false }
      else proposal
    if ¬ now < proposal.endTime then none
    else if (proposal.candidates candidate).isActive then none
    else
      let proposal := { proposal with
        candidates := fupd proposal.candidates candidate
          ⟨candidate, sender, 0, true⟩
        candidateList := proposal.candidateList ++ [candidate] }
      some { w with circle := { c with payoutProposals := fupd c.payoutProposals month proposal } }

/-- Candidate eligibility inside `_selectWinner`: the three `continue` guards. -/
def candEligible (c : Circle) (prop : PayoutProposal) (a : Nat) : Bool :=
  (prop.candidates a).isActive && !(c.participants a).hasReceivedPayout
    && !(c.participants a).isInDefault

/-- The scan loop of `LendingCircle._selectWinner`, carrying
(bestCandidate, bestVotes, bestCredit). -/
def selectWinnerAux (reg : CreditRegistry) (c : Circle) (prop : PayoutProposal) :
    List Nat → Nat × Nat × Nat → Nat × Nat × Nat
  | [], best => best
  | a :: rest, (bestA, bestV, bestC) =>
      if candEligible c prop a then
        let v := (prop.candidates a).totalVotes
        let cr := reg.getCreditScore a
        if v > bestV ∨ (v = bestV ∧ cr > bestC) then
          selectWinnerAux reg c prop rest (a, v, cr)
        else
          selectWinnerAux reg c prop rest (bestA, bestV, bestC)
      else selectWinnerAux reg c prop rest (bestA, bestV, bestC)

/-- `LendingCircle._selectWinner`. -/
def selectWinner (reg : CreditRegistry) (c : Circle) (month : Nat) : Nat :=
  let proposal := c.payoutProposals month
  if proposal.candidateList = [] then 0
  else (selectWinnerAux reg c proposal proposal.candidateList (0, 0, 0)).1

/-- The loop body of `_distributeExcess` (source lines 667–672): credit
`perParticipant` to one listed participant when active and not in default. -/
def creditStep (perParticipant : Nat) (ps : Nat → Participant) (a : Nat) :
    Nat → Participant :=
  if (ps a).isActive && !(ps a).isInDefault then
    fupd ps a
      { ps a with withdrawableBalance := (ps a).withdrawableBalance + perParticipant }
  else ps

/-- `LendingCircle._distributeExcess`. -/
def distributeExcess (c : Circle) (month : Nat) : Circle :=
  let activeCount := getActiveParticipantCount c
  if activeCount = 0 then c
  else
    let expectedPoolPerParticipant := c.monthlyContribution * (100 - c.reservePercentage) / 100
    let expectedTotalPool := expectedPoolPerParticipant * activeCount
    if c.poolBalance > expectedTotalPool then
      let excess := c.poolBalance - expectedTotalPool
      let perParticipant := excess / activeCount
      let parts := c.participantList.foldl (creditStep perParticipant) c.participants
      { c with participants := parts, poolBalance := c.poolBalance - excess }
    else c

/-- `LendingCircle._completeCircle`. -/
def completeCircle (w : World) : World :=
  let c := { w.circle with status := CircleStatus.COMPLETED }
  let reg := c.participantList.foldl (fun reg a =>
    if (c.participants a).isActive && !(c.participants a).isInDefault then
      reg.recordCircleCompletion a
    else reg) w.registry
  { w with circle := c, registry := reg }

/-- The payout amount computed by `executePayout` (source lines 445–450):
`(monthlyContribution * (100 - reservePercentage) / 100) * activeCount`. -/
def expectedPayoutAmount (c : Circle) : Nat :=
  c.monthlyContribution * (100 - c.reservePercentage) / 100 * getActiveParticipantCount c

/-- The reserve pull of `executePayout` (source lines 452–457), returning the
updated reserve pool and the new `poolBalance`.  The value transfer inside
`ReservePool.withdraw` re-enters the circle through `receive()`, which already
adds the amount to `poolBalance`; the next source line then adds the shortfall
again, hence `+ shortfall + shortfall`. -/
def pullReserve (w : World) (payoutAmount : Nat) : Option (ReservePool × Nat) :=
  let c := w.circle
  if c.poolBalance < payoutAmount then
    let shortfall := payoutAmount - c.poolBalance
    match w.pool.withdraw w.circleAddr shortfall w.circleAddr with
    | none => none
    | some pool => some (pool, c.poolBalance + shortfall + shortfall)
  else some (w.pool, c.poolBalance)

/-- The state mutation of a successful `executePayout` (source lines 461–481):
mark the winner paid, debit the pool, mark the proposal executed, credit the
winner in the registry, distribute the excess, advance the month and complete
the circle when the duration is reached. -/
def applyPayout (w : World) (month recipient payoutAmount : Nat)
    (pool : ReservePool) (pb : Nat) : World :=
  let c := w.circle
  let proposal := c.payoutProposals month
  let parts := fupd c.participants recipient
    { c.participants recipient with hasReceivedPayout := true }
  let prop := { proposal with executed := true, winner := recipient }
  let c := { c with
    participants := parts
    poolBalance := pb - payoutAmount
    payoutProposals := fupd c.payoutProposals month prop }
  let reg := w.registry.recordOnTimePayment recipient
  let c := distributeExcess c month
  let c := { c with currentMonth := c.currentMonth + 1 }
  let w := { w with circle := c, registry := reg, pool := pool }
  if c.currentMonth ≥ c.durationInMonths then completeCircle w else w

/-- `LendingCircle.executePayout` (`nonReentrant onlyActiveCircle`).  Returns
the updated world together with the recipient and amount of the value
transfer, mirroring the `PayoutExecuted(recipient, amount, month)` event. -/
def executePayout (now month : Nat) (w : World) : Option (World × Nat × Nat) :=
  let c := w.circle
  if c.status ≠ CircleStatus.ACTIVE then none
  else
    let proposal := c.payoutProposals month
    if proposal.endTime = 0 then none
    else if now < proposal.endTime then none
    else if proposal.executed then none
    else if month ≠ c.currentMonth then none
    else
      let recipient := selectWinner w.registry c month
      if recipient = 0 then none
      else if (c.participants recipient).isActive = false then none
      else if (c.participants recipient).hasReceivedPayout then none
      else if (c.participants recipient).isInDefault then none
      else
        let payoutAmount := expectedPayoutAmount c
        match pullReserve w payoutAmount with
        | none => none
        | some (pool, pb) =>
            if pb < payoutAmount then none
            else some (applyPayout w month recipient payoutAmount pool pb,
              recipient, payoutAmount)

/-- `LendingCircle.withdrawExcess` (`onlyActiveParticipant`).  Returns the
updated world and the amount transferred out. -/
def withdrawExcess (sender : Nat) (w : World) : Option (World × Nat) :=
  let c := w.circle
  if ¬ ((c.participants sender).isActive ∧ (c.participants sender).isInDefault = false) then none
  else if c.excessDistributionMethod ≠ ExcessDistributionMethod.WITHDRAWABLE then none
  else if (c.participants sender).withdrawableBalance = 0 then none
  else
    let amount := (c.participants sender).withdrawableBalance
    let parts := fupd c.participants sender
      { c.participants sender with withdrawableBalance := 0 }
    some ({ w with circle := { c with participants := parts } }, amount)

/-! ## Concrete states used to instantiate the theorems -/
def mkActive (a : Nat) : Participant :=
  { Participant.zero with participant := a, isActive := true }

def reg45 : CreditRegistry :=
  ⟨fun a => if a = 1 then ⟨400, 0, 0, 0, 0, 0, false⟩
    else if a = 2 then ⟨500, 0, 0, 0, 0, 0, false⟩
    else CreditProfile.zero,
   fun a => a == 1 || a == 2⟩

def baseCircle : Circle :=
  { creator := 1
    coordinator := 1
    monthlyContribution := 10
    durationInMonths := 12
    minParticipants := 2
    maxParticipants := 5
    reservePercentage := 0
    excessDistributionMethod := ExcessDistributionMethod.WITHDRAWABLE
    status := CircleStatus.ACTIVE
    currentMonth := 0
    totalParticipants := 2
    poolBalance := 0
    totalReserveDeposited := 0
    participants := fun a => if a = 1 ∨ a = 2 then mkActive a else Participant.zero
    participantList := [1, 2]
    payoutProposals := fun _ => PayoutProposal.zero
    votingPeriod := SEVEN_DAYS }

def propAB (vA vB : Nat) : PayoutProposal :=
  { PayoutProposal.zero with
    endTime := 100
    candidateList := [1, 2]
    candidates := fun a =>
      if a = 1 then ⟨1, 1, vA, true⟩ else if a = 2 then ⟨2, 1, vB, true⟩ else Candidate.zero }

def circAB (vA vB : Nat) : Circle :=
  { baseCircle with payoutProposals := fupd (fun _ => PayoutProposal.zero) 0 (propAB vA vB) }

def regZero2 : CreditRegistry :=
  ⟨fun a => if a = 2 then ⟨0, 0, 0, 0, 0, 0, false⟩ else CreditProfile.zero,
   fun a => a == 2⟩

def prop2only : PayoutProposal :=
  { PayoutProposal.zero with
    endTime := 100
    candidateList := [2]
    candidates := fun a => if a = 2 then ⟨2, 1, 0, true⟩ else Candidate.zero }

def circ2only : Circle :=
  { baseCircle with payoutProposals := fupd (fun _ => PayoutProposal.zero) 0 prop2only }

def world2only : World := ⟨7, circ2only, regZero2, ReservePool.mkPool 9⟩

def w4_0 : Option World :=
  (createCircle 1 1 6 3 6 10 ExcessDistributionMethod.WITHDRAWABLE CreditRegistry.init).map
    (fun pr => ⟨5, pr.1, pr.2, ReservePool.mkPool 9⟩)
def w4_1 : Option World := w4_0.bind (requestToJoin 2)
def w4_2 : Option World := w4_1.bind (requestToJoin 3)
def w4_3 : Option World := w4_2.bind (approveParticipant 1 2)
def w5a : Option World := w4_2.bind (requestToJoin 2)

def w9_0 : Option World :=
  (createCircle 1 1 6 2 2 0 ExcessDistributionMethod.WITHDRAWABLE CreditRegistry.init).map
    (fun pr => ⟨5, pr.1, pr.2, ReservePool.mkPool 9⟩)
def w9_1 : Option World := w9_0.bind (requestToJoin 2)
def w9_2 : Option World := w9_1.bind (approveParticipant 1 2)
def w9_3 : Option World :=
  (List.range 15).foldl (fun ow m => ow.bind (circleRecordLatePayment 1 2 m)) w9_2
def w9_4 : Option World := w9_3.bind (proposePayout 1 2 0 10)

def poolC2 : ReservePool := ⟨9, fun a => a == 7, 100, 0, 100⟩
def worldC2 : World := ⟨7, { circAB 10 10 with poolBalance := 5 }, reg45, poolC2⟩

def poolC2s : ReservePool := ⟨9, fun a => a == 7, 10, 0, 10⟩
def worldC2s : World := ⟨7, { circAB 10 10 with poolBalance := 5 }, reg45, poolC2s⟩

def circC3 : Circle := { circAB 10 10 with poolBalance := 25 }

def circC10 : Circle :=
  { baseCircle with participants := fun a =>
      if a = 2 then
        { Participant.zero with
            participant := 2, isActive := true, isInDefault := true, withdrawableBalance := 5 }
      else if a = 1 then mkActive 1 else Participant.zero }
def worldC10 : World := ⟨7, circC10, reg45, poolC2⟩

def defaultWorld : World :=
  ⟨0, { baseCircle with status := CircleStatus.CANCELLED }, CreditRegistry.init,
    ReservePool.mkPool 0⟩

/-! ## C4 — PENDING → ACTIVE transition point -/
def w4pre : World := w4_2.getD defaultWorld
def w4post : World := (approveParticipant 1 2 w4pre).getD defaultWorld

def c2res : World × Nat × Nat := (executePayout 100 0 worldC2).getD (defaultWorld, 0, 0)
def c2w : World := c2res.1

def w9c : World := w9_4.getD defaultWorld

/-! ## C1 — winner selection refines the spec's stable lexicographic argmax -/
/-- The comparison key of a candidate inside `_selectWinner`:
(totalVotes, current credit score). -/
def candKey (reg : CreditRegistry) (prop : PayoutProposal) (a : Nat) : Nat × Nat :=
  ((prop.candidates a).totalVotes, reg.getCreditScore a)

/-- Strict lexicographic order on (votes, credit) used by the scan:
`candidateVotes > bestVotes || (candidateVotes == bestVotes && candidateCredit > bestCredit)`. -/
def lexGt (p q : Nat × Nat) : Prop :=
  p.1 > q.1 ∨ (p.1 = q.1 ∧ p.2 > q.2)

instance (p q : Nat × Nat) : Decidable (lexGt p q) := by
  unfold lexGt
  infer_instance

/-- Modelled from the spec: "selects the winner by scanning all active
candidates and choosing the one with the strictly highest `totalVotes`; ties
are broken by the candidate's current credit score (strictly higher wins); if
still tied the earliest-registered candidate in proposal order keeps the lead
(stable scan, first-seen wins ties)" — a stable fold that always adopts the
first eligible candidate and afterwards replaces the leader only on strict
lexicographic improvement. -/
def selectWinnerSpecAux (reg : CreditRegistry) (c : Circle) (prop : PayoutProposal) :
    List Nat → Option Nat → Option Nat
  | [], best => best
  | a :: rest, best =>
      if candEligible c prop a then
        match best with
        | none => selectWinnerSpecAux reg c prop rest (some a)
        | some b =>
            if lexGt (candKey reg prop a) (candKey reg prop b) then
              selectWinnerSpecAux reg c prop rest (some a)
            else selectWinnerSpecAux reg c prop rest (some b)
      else selectWinnerSpecAux reg c prop rest best

/-- Modelled from the spec: the winner described by the specification text, or
`none` when no eligible candidate exists. -/
def selectWinnerSpec (reg : CreditRegistry) (c : Circle) (month : Nat) : Option Nat :=
  selectWinnerSpecAux reg c (c.payoutProposals month)
    (c.payoutProposals month).candidateList none

/-- Simulation relation between the spec accumulator and the source scan's
(bestCandidate, bestVotes, bestCredit) accumulator: both agree once the leader
strictly beats the scan's zero sentinel; a leader with key (0,0) is invisible
to the source scan. -/
def selRel (reg : CreditRegistry) (prop : PayoutProposal) (sb : Option Nat)
    (st : Nat × Nat × Nat) : Prop :=
  match sb with
  | none => st = (0, 0, 0)
  | some b =>
      (lexGt (candKey reg prop b) (0, 0) ∧ st = (b, candKey reg prop b))
      ∨ (¬ lexGt (candKey reg prop b) (0, 0) ∧ st = (0, 0, 0))

theorem fupd_same {α : Type} (f : Nat → α) (k : Nat) (v : α) : fupd f k v k = v := by
  simp [fupd]

theorem fupd_other {α : Type} (f : Nat → α) (k : Nat) (v : α) (x : Nat) (h : x ≠ k) :
    fupd f k v x = f x := by
  simp [fupd, h]

theorem ensureProfile_bounded (reg : CreditRegistry) (x : Nat)
    (h : scoresBounded reg) : scoresBounded (reg.ensureProfile x) := by
  intro a
  unfold CreditRegistry.ensureProfile
  by_cases hx : reg.hasProfile x = false
  · rw [if_pos hx]
    show (fupd reg.creditProfiles x ⟨BASE_CREDIT_SCORE, 0, 0, 0, 0, 0, false⟩ a).creditScore ≤
      MAX_CREDIT_SCORE
    unfold fupd
    by_cases hax : a = x
    · rw [if_pos hax]
      decide
    · rw [if_neg hax]
      exact h a
  · rw [if_neg hx]
    exact h a

theorem applyRegOp_bounded (reg : CreditRegistry) (op : RegOp)
    (h : scoresBounded reg) : scoresBounded (applyRegOp reg op) := by
  have hb : ∀ x b, ((reg.ensureProfile x).creditProfiles b).creditScore ≤ MAX_CREDIT_SCORE :=
    fun x => ensureProfile_bounded reg x h
  cases op with
  | onTime a =>
      intro b
      by_cases hba : b = a
      · subst hba
        simp only [applyRegOp, CreditRegistry.recordOnTimePayment, fupd_same]
        split
        · exact le_refl _
        · omega
      · simp only [applyRegOp, CreditRegistry.recordOnTimePayment, fupd_other _ _ _ _ hba]
        exact hb a b
  | late a =>
      intro b
      by_cases hba : b = a
      · subst hba
        simp only [applyRegOp, CreditRegistry.recordLatePayment, fupd_same]
        have := hb b b
        split
        · omega
        · decide
      · simp only [applyRegOp, CreditRegistry.recordLatePayment, fupd_other _ _ _ _ hba]
        exact hb a b
  | dflt a =>
      intro b
      by_cases hba : b = a
      · subst hba
        simp only [applyRegOp, CreditRegistry.recordDefault, fupd_same]
        have := hb b b
        split
        · omega
        · decide
      · simp only [applyRegOp, CreditRegistry.recordDefault, fupd_other _ _ _ _ hba]
        exact hb a b
  | completion a =>
      intro b
      by_cases hba : b = a
      · subst hba
        simp only [applyRegOp, CreditRegistry.recordCircleCompletion, fupd_same]
        split
        · exact le_refl _
        · omega
      · simp only [applyRegOp, CreditRegistry.recordCircleCompletion, fupd_other _ _ _ _ hba]
        exact hb a b
  | join a =>
      intro b
      by_cases hba : b = a
      · subst hba
        simp only [applyRegOp, CreditRegistry.recordCircleJoin, fupd_same]
        exact hb b b
      · simp only [applyRegOp, CreditRegistry.recordCircleJoin, fupd_other _ _ _ _ hba]
        exact hb a b

theorem applyRegOps_bounded (ops : List RegOp) (reg : CreditRegistry)
    (h : scoresBounded reg) : scoresBounded (applyRegOps reg ops) := by
  induction ops generalizing reg with
  | nil => exact h
  | cons op rest ih => exact ih _ (applyRegOp_bounded reg op h)

theorem ensureProfile_of_hasProfile (reg : CreditRegistry) (x : Nat)
    (h : reg.hasProfile x = true) : reg.ensureProfile x = reg := by
  unfold CreditRegistry.ensureProfile
  rw [if_neg]
  simp [h]

theorem ensureProfile_preserves_default (reg : CreditRegistry) (x a : Nat)
    (h : defaultRecorded reg a) : defaultRecorded (reg.ensureProfile x) a := by
  obtain ⟨h1, h2⟩ := h
  unfold CreditRegistry.ensureProfile
  by_cases hx : reg.hasProfile x = false
  · rw [if_pos hx]
    constructor
    · show fupd reg.hasProfile x true a = true
      unfold fupd
      by_cases hax : a = x
      · rw [if_pos hax]
      · rw [if_neg hax]
        exact h1
    · show (fupd reg.creditProfiles x ⟨BASE_CREDIT_SCORE, 0, 0, 0, 0, 0, false⟩ a).hasDefaulted
        = true
      unfold fupd
      by_cases hax : a = x
      · exact absurd (hax ▸ h1) (by simp [hx])
      · rw [if_neg hax]
        exact h2
  · rw [if_neg hx]
    exact ⟨h1, h2⟩

theorem applyRegOp_preserves_default (reg : CreditRegistry) (op : RegOp) (a : Nat)
    (h : defaultRecorded reg a) : defaultRecorded (applyRegOp reg op) a := by
  cases op with
  | onTime x =>
      have he := ensureProfile_preserves_default reg x a h
      simp only [applyRegOp, CreditRegistry.recordOnTimePayment]
      refine ⟨he.1, ?_⟩
      by_cases hax : a = x
      · subst hax
        simp only [fupd_same]
        exact he.2
      · simp only [fupd_other _ _ _ _ hax]
        exact he.2
  | late x =>
      have he := ensureProfile_preserves_default reg x a h
      simp only [applyRegOp, CreditRegistry.recordLatePayment]
      refine ⟨he.1, ?_⟩
      by_cases hax : a = x
      · subst hax
        simp only [fupd_same]
        exact he.2
      · simp only [fupd_other _ _ _ _ hax]
        exact he.2
  | dflt x =>
      have he := ensureProfile_preserves_default reg x a h
      simp only [applyRegOp, CreditRegistry.recordDefault]
      refine ⟨he.1, ?_⟩
      by_cases hax : a = x
      · subst hax
        simp only [fupd_same]
      · simp only [fupd_other _ _ _ _ hax]
        exact he.2
  | completion x =>
      have he := ensureProfile_preserves_default reg x a h
      simp only [applyRegOp, CreditRegistry.recordCircleCompletion]
      refine ⟨he.1, ?_⟩
      by_cases hax : a = x
      · subst hax
        simp only [fupd_same]
        exact he.2
      · simp only [fupd_other _ _ _ _ hax]
        exact he.2
  | join x =>
      have he := ensureProfile_preserves_default reg x a h
      simp only [applyRegOp, CreditRegistry.recordCircleJoin]
      refine ⟨he.1, ?_⟩
      by_cases hax : a = x
      · subst hax
        simp only [fupd_same]
        exact he.2
      · simp only [fupd_other _ _ _ _ hax]
        exact he.2

theorem applyRegOps_preserves_default (ops : List RegOp) (reg : CreditRegistry) (a : Nat)
    (h : defaultRecorded reg a) : defaultRecorded (applyRegOps reg ops) a := by
  induction ops generalizing reg with
  | nil => exact h
  | cons op rest ih => exact ih _ (applyRegOp_preserves_default reg op a h)

theorem recordDefault_establishes (reg : CreditRegistry) (a : Nat) :
    defaultRecorded (reg.recordDefault a) a := by
  unfold CreditRegistry.recordDefault
  constructor
  · show (reg.ensureProfile a).hasProfile a = true
    unfold CreditRegistry.ensureProfile
    by_cases hx : reg.hasProfile a = false
    · rw [if_pos hx]
      show fupd reg.hasProfile a true a = true
      rw [fupd_same]
    · rw [if_neg hx]
      simpa using hx
  · simp only [fupd_same]

theorem applyPoolOp_invariant (pool : ReservePool) (op : PoolOp)
    (h : poolInvariant pool) : poolInvariant (applyPoolOp pool op) := by
  cases op with
  | verify s c =>
      simp only [applyPoolOp, ReservePool.verifyCircle]
      split
      · exact h
      · split
        · exact h
        · exact h
  | revoke s c =>
      simp only [applyPoolOp, ReservePool.revokeCircle]
      split
      · exact h
      · exact h
  | deposit s v =>
      simp only [applyPoolOp, ReservePool.deposit]
      split
      · exact h
      · split
        · exact h
        · unfold poolInvariant at h ⊢
          simp only [Option.getD_some]
          omega
  | withdraw s a r =>
      simp only [applyPoolOp, ReservePool.withdraw]
      split
      · exact h
      · split
        · exact h
        · split
          · exact h
          · split
            · exact h
            · unfold poolInvariant at h ⊢
              simp only [Option.getD_some]
              rename_i hlt
              omega
  | recv s v =>
      simp only [applyPoolOp, ReservePool.receiveValue]
      split
      · exact h
      · unfold poolInvariant at h ⊢
        simp only [Option.getD_some]
        omega

theorem applyPoolOps_invariant (ops : List PoolOp) (pool : ReservePool)
    (h : poolInvariant pool) : poolInvariant (applyPoolOps pool ops) := by
  induction ops generalizing pool with
  | nil => exact h
  | cons op rest ih => exact ih _ (applyPoolOp_invariant pool op h)

/-! ## C6 — credit scores stay within [0, 1000] -/
theorem getCreditScore_le (reg : CreditRegistry) (a : Nat) (h : scoresBounded reg) :
    reg.getCreditScore a ≤ MAX_CREDIT_SCORE := by
  unfold CreditRegistry.getCreditScore
  split
  · decide
  · exact h a

theorem init_scoresBounded : scoresBounded CreditRegistry.init := by
  intro a
  show (0 : Nat) ≤ MAX_CREDIT_SCORE
  decide

/-- C6: for every sequence of credit-ledger operations applied to the freshly
deployed registry, every stored credit score and every reported
`getCreditScore` stays within `0 ≤ score ≤ 1000`: additions saturate at 1000
and subtractions are guarded at 0 (scores are `Nat`, so `0 ≤ score` is the
unsigned-integer lower bound of the source). -/
theorem c6_score_always_bounded (ops : List RegOp) (a : Nat) :
    MIN_CREDIT_SCORE ≤ ((applyRegOps CreditRegistry.init ops).creditProfiles a).creditScore
    ∧ ((applyRegOps CreditRegistry.init ops).creditProfiles a).creditScore ≤ MAX_CREDIT_SCORE
    ∧ (applyRegOps CreditRegistry.init ops).getCreditScore a ≤ MAX_CREDIT_SCORE := by
  have hb := applyRegOps_bounded ops CreditRegistry.init init_scoresBounded
  exact ⟨Nat.zero_le _, hb a, getCreditScore_le _ a hb⟩

/-! ## C7 — ReservePool flow accounting -/
theorem withdraw_insufficient (pool : ReservePool) (s a r : Nat)
    (h : pool.currentBalance < a) : pool.withdraw s a r = none := by
  unfold ReservePool.withdraw
  repeat' split
  any_goals rfl

theorem mkPool_invariant (s : Nat) : poolInvariant (ReservePool.mkPool s) := by
  unfold poolInvariant ReservePool.mkPool
  rfl

/-- C7: after any sequence of operations on a freshly deployed ReservePool,
`currentBalance = totalDeposited - totalWithdrawn` (stated without truncation
as `currentBalance + totalWithdrawn = totalDeposited`); a withdrawal of more
than `currentBalance` always reverts; and deposits, withdrawals and direct
value receipts all require the caller to be a verified circle. -/
theorem c7_reserve_pool_sound :
    (∀ (s : Nat) (ops : List PoolOp),
      (applyPoolOps (ReservePool.mkPool s) ops).currentBalance
          + (applyPoolOps (ReservePool.mkPool s) ops).totalWithdrawn
        = (applyPoolOps (ReservePool.mkPool s) ops).totalDeposited
      ∧ (applyPoolOps (ReservePool.mkPool s) ops).currentBalance
        = (applyPoolOps (ReservePool.mkPool s) ops).totalDeposited
          - (applyPoolOps (ReservePool.mkPool s) ops).totalWithdrawn)
    ∧ (∀ (pool : ReservePool) (s a r : Nat),
        pool.currentBalance < a → pool.withdraw s a r = none)
    ∧ (∀ (pool p' : ReservePool) (s v : Nat),
        pool.deposit s v = some p' → pool.verifiedCircles s = true)
    ∧ (∀ (pool p' : ReservePool) (s a r : Nat),
        pool.withdraw s a r = some p' → pool.verifiedCircles s = true)
    ∧ (∀ (pool p' : ReservePool) (s v : Nat),
        pool.receiveValue s v = some p' → pool.verifiedCircles s = true) := by
  refine ⟨?_, withdraw_insufficient, ?_, ?_, ?_⟩
  · intro s ops
    have h := applyPoolOps_invariant ops (ReservePool.mkPool s) (mkPool_invariant s)
    unfold poolInvariant at h
    omega
  · intro pool p' s v h
    unfold ReservePool.deposit at h
    split at h
    · exact Option.noConfusion h
    · rename_i hv
      simpa using hv
  · intro pool p' s a r h
    unfold ReservePool.withdraw at h
    split at h
    · exact Option.noConfusion h
    · rename_i hv
      simpa using hv
  · intro pool p' s v h
    unfold ReservePool.receiveValue at h
    split at h
    · exact Option.noConfusion h
    · rename_i hv
      simpa using hv

/-- Concrete instantiation of C7's hypothesis-bearing parts: a pool holding 10
cannot pay out 50, and a successful deposit implies the caller was verified. -/
theorem c7_reserve_pool_sound_witness :
    (poolC2s.currentBalance < 50 ∧ poolC2s.withdraw 7 50 7 = none)
    ∧ (poolC2.deposit 7 5 = some ((poolC2.deposit 7 5).getD poolC2)
        ∧ poolC2.verifiedCircles 7 = true) := by
  refine ⟨⟨by decide, c7_reserve_pool_sound.2.1 poolC2s 7 50 7 (by decide)⟩, ⟨by rfl, ?_⟩⟩
  exact c7_reserve_pool_sound.2.2.1 poolC2 ((poolC2.deposit 7 5).getD poolC2) 7 5 (by rfl)

/-! ## C10 — a defaulted participant can never call withdrawExcess -/
/-- C10: in every state in which a participant is flagged `isInDefault`, their
`withdrawExcess` call reverts (the `onlyActiveParticipant` modifier requires
`isActive && !isInDefault`), regardless of the distribution method or of a
positive withdrawable balance; since the theorem holds in every state, a
balance accrued before the default is unrecoverable by them in this circle. -/
theorem c10_default_blocks_withdraw (sender : Nat) (w : World)
    (h : (w.circle.participants sender).isInDefault = true) :
    withdrawExcess sender w = none := by
  unfold withdrawExcess
  rw [if_pos]
  intro hc
  rw [h] at hc
  exact Bool.noConfusion hc.2

/-- Concrete instantiation of C10: participant 2 is in default, the method is
WITHDRAWABLE and their withdrawable balance is positive, yet withdrawal
reverts. -/
theorem c10_default_blocks_withdraw_witness :
    (worldC10.circle.participants 2).isInDefault = true
    ∧ worldC10.circle.excessDistributionMethod = ExcessDistributionMethod.WITHDRAWABLE
    ∧ (worldC10.circle.participants 2).withdrawableBalance = 5
    ∧ withdrawExcess 2 worldC10 = none :=
  ⟨by rfl, by rfl, by rfl, c10_default_blocks_withdraw 2 worldC10 (by rfl)⟩

/-- C4 (amended): a successful `approveParticipant` leaves the circle ACTIVE
exactly when `totalParticipants` — which counts pending, not-yet-approved
members — has reached `minParticipants`; activation therefore does not wait
for the minParticipants-th participant to become active. -/
theorem c4_activation_condition (sender p : Nat) (w w' : World)
    (h : approveParticipant sender p w = some w') :
    w'.circle.status = CircleStatus.ACTIVE
      ↔ w.circle.minParticipants ≤ w.circle.totalParticipants := by
  unfold approveParticipant at h
  dsimp only at h
  split at h
  · exact Option.noConfusion h
  · split at h
    · exact Option.noConfusion h
    · split at h
      · exact Option.noConfusion h
      · split at h
        · exact Option.noConfusion h
        · rename_i hstatus _ _
          split at h
          · rename_i hge
            cases h
            simpa using hge
          · rename_i hlt
            cases h
            constructor
            · intro hact
              have hp : w.circle.status = CircleStatus.PENDING := by simpa using hstatus
              rw [hp] at hact
              exact CircleStatus.noConfusion hact
            · intro hge
              exact absurd hge hlt

/-- Concrete instantiation of C4's amended statement on the spec scenario
(min 3, max 6, creator plus two join requests): the first approval succeeds
and the activation condition evaluates on it. -/
theorem c4_activation_condition_witness :
    approveParticipant 1 2 w4pre = some w4post
    ∧ (w4post.circle.status = CircleStatus.ACTIVE
        ↔ w4pre.circle.minParticipants ≤ w4pre.circle.totalParticipants) :=
  ⟨by rfl, c4_activation_condition 1 2 w4pre w4post (by rfl)⟩

/-- C4 counterexample: in the spec scenario (minParticipants = 3,
maxParticipants = 6, two join requests after the creator), the very first
`approveParticipant` call already moves the circle to ACTIVE, while only two
participants are active and participant 3 is still unapproved — and the next
approval then reverts because the circle is no longer PENDING.  This refutes
the claim that activation happens exactly when the third participant is made
active. -/
theorem c4_activation_counterexample :
    w4_3.map (fun w => w.circle.status) = some CircleStatus.ACTIVE
    ∧ w4_3.map (fun w => getActiveParticipantCount w.circle) = some 2
    ∧ w4_3.map (fun w => (w.circle.participants 3).isActive) = some false
    ∧ w4_3.bind (approveParticipant 1 3) = none := by
  exact ⟨by rfl, by rfl, by rfl, by rfl⟩

/-! ## C5 — requestToJoin preconditions -/
/-- C5 (amended): `requestToJoin` succeeds exactly when the circle is PENDING,
not full, the caller is not an *active* participant, and the caller is not the
creator.  A pending, not-yet-approved participant passes all four checks and
can join again (duplicating their entry); a failed call returns `none`, i.e.
no state change. -/
theorem c5_requestToJoin_conditions (sender : Nat) (w : World) :
    (requestToJoin sender w).isSome = true
      ↔ (w.circle.status = CircleStatus.PENDING
          ∧ w.circle.totalParticipants < w.circle.maxParticipants
          ∧ (w.circle.participants sender).isActive = false
          ∧ sender ≠ w.circle.creator) := by
  unfold requestToJoin
  dsimp only
  split
  · rename_i hs
    simp only [Option.isSome_none]
    constructor
    · intro hfalse
      exact Bool.noConfusion hfalse
    · rintro ⟨h1, -⟩
      exact absurd h1 hs
  · split
    · rename_i hs hfull
      simp only [Option.isSome_none]
      constructor
      · intro hfalse
        exact Bool.noConfusion hfalse
      · rintro ⟨-, h2, -⟩
        exact absurd h2 hfull
    · split
      · rename_i hs hfull hact
        simp only [Option.isSome_none]
        constructor
        · intro hfalse
          exact Bool.noConfusion hfalse
        · rintro ⟨-, -, h3, -⟩
          rw [hact] at h3
          exact Bool.noConfusion h3
      · split
        · rename_i hs hfull hact hcreator
          simp only [Option.isSome_none]
          constructor
          · intro hfalse
            exact Bool.noConfusion hfalse
          · rintro ⟨-, -, -, h4⟩
            exact absurd hcreator h4
        · rename_i hs hfull hact hcreator
          simp only [Option.isSome_some, true_iff]
          refine ⟨by simpa using hs, by simpa using hfull, ?_, hcreator⟩
          simpa using hact

/-- C5 counterexample: participant 2 has a pending (inactive) participant
record in the scenario state, yet a second `requestToJoin` succeeds, adding a
duplicate list entry and incrementing `totalParticipants` — refuting the claim
that a pending participant's join request fails. -/
theorem c5_pending_rejoin_counterexample :
    w4_2.map (fun w => (w.circle.participants 2).participant) = some 2
    ∧ w4_2.map (fun w => (w.circle.participants 2).isActive) = some false
    ∧ (w4_2.bind (requestToJoin 2)).isSome = true
    ∧ w5a.map (fun w => w.circle.totalParticipants) = some 4
    ∧ w5a.map (fun w => w.circle.participantList) = some [1, 2, 3, 2] :=
  ⟨by rfl, by rfl, by rfl, by rfl, by rfl⟩

/-! ## executePayout analysis (C2, C8, C9) -/
theorem completeIf_pool (b : Prop) [Decidable b] (x : World) :
    (if b then completeCircle x else x).pool = x.pool := by
  split <;> rfl

theorem withdraw_some_spec (pool p' : ReservePool) (s a r : Nat)
    (h : pool.withdraw s a r = some p') :
    p'.totalWithdrawn = pool.totalWithdrawn + a
    ∧ p'.currentBalance = pool.currentBalance - a
    ∧ a ≤ pool.currentBalance
    ∧ p'.totalDeposited = pool.totalDeposited
    ∧ pool.verifiedCircles s = true := by
  unfold ReservePool.withdraw at h
  split at h
  · exact Option.noConfusion h
  split at h
  · exact Option.noConfusion h
  split at h
  · exact Option.noConfusion h
  split at h
  · exact Option.noConfusion h
  rename_i hver hz hr hlt
  cases h
  refine ⟨rfl, rfl, by omega, rfl, by simpa using hver⟩

theorem applyPayout_pool (w : World) (month recipient payoutAmount : Nat)
    (pool : ReservePool) (pb : Nat) :
    (applyPayout w month recipient payoutAmount pool pb).pool = pool := by
  unfold applyPayout
  dsimp only
  rw [completeIf_pool]

theorem executePayout_success (now month : Nat) (w w' : World) (r amt : Nat)
    (h : executePayout now month w = some (w', r, amt)) :
    r = selectWinner w.registry w.circle month
    ∧ (w.circle.participants r).isInDefault = false
    ∧ amt = w.circle.monthlyContribution * (100 - w.circle.reservePercentage) / 100
        * getActiveParticipantCount w.circle
    ∧ (w.circle.poolBalance < amt →
        w.pool.withdraw w.circleAddr (amt - w.circle.poolBalance) w.circleAddr = some w'.pool)
    ∧ (¬ w.circle.poolBalance < amt → w'.pool = w.pool) := by
  unfold executePayout at h
  dsimp only at h
  split at h
  · exact Option.noConfusion h
  split at h
  · exact Option.noConfusion h
  split at h
  · exact Option.noConfusion h
  split at h
  · exact Option.noConfusion h
  split at h
  · exact Option.noConfusion h
  split at h
  · exact Option.noConfusion h
  split at h
  · exact Option.noConfusion h
  split at h
  · exact Option.noConfusion h
  split at h
  · exact Option.noConfusion h
  rename_i hdef
  split at h
  · exact Option.noConfusion h
  rename_i pool pb heq
  split at h
  · exact Option.noConfusion h
  rename_i hpb
  rw [Option.some.injEq, Prod.mk.injEq, Prod.mk.injEq] at h
  obtain ⟨hw, hr, hamt⟩ := h
  subst hw
  subst hr
  subst hamt
  refine ⟨rfl, by simpa using hdef, rfl, ?_, ?_⟩
  · intro hlt
    unfold pullReserve at heq
    dsimp only at heq
    split at heq
    · split at heq
      · exact Option.noConfusion heq
      · rename_i pool0 heq2
        rw [Option.some.injEq, Prod.mk.injEq] at heq
        obtain ⟨hp, -⟩ := heq
        rw [applyPayout_pool, ← hp]
        exact heq2
    · exact absurd hlt (by assumption)
  · intro hge
    unfold pullReserve at heq
    dsimp only at heq
    split at heq
    · exact absurd (by assumption) hge
    · rw [Option.some.injEq, Prod.mk.injEq] at heq
      obtain ⟨hp, -⟩ := heq
      rw [applyPayout_pool, ← hp]

theorem executePayout_reserve_insufficient (now month : Nat) (w : World)
    (h1 : w.circle.poolBalance < expectedPayoutAmount w.circle)
    (h2 : w.pool.currentBalance < expectedPayoutAmount w.circle - w.circle.poolBalance) :
    executePayout now month w = none := by
  unfold executePayout
  dsimp only
  split
  · rfl
  split
  · rfl
  split
  · rfl
  split
  · rfl
  split
  · rfl
  split
  · rfl
  split
  · rfl
  split
  · rfl
  split
  · rfl
  split
  · rfl
  · rename_i pool pb heq
    exfalso
    unfold pullReserve at heq
    dsimp only at heq
    rw [if_pos h1] at heq
    rw [withdraw_insufficient w.pool w.circleAddr
      (expectedPayoutAmount w.circle - w.circle.poolBalance) w.circleAddr h2] at heq
    exact Option.noConfusion heq

/-! ## C2 — payout amount and reserve shortfall -/
/-- C2: a successful `executePayout` always transfers exactly
`(monthlyContribution * (100 - reservePercentage) / 100) * activeCount`,
independent of what was contributed; when `poolBalance` is short, exactly the
shortfall is withdrawn from the ReservePool (its `totalWithdrawn` grows and
its `currentBalance` shrinks by precisely that shortfall, which must fit in
the reserve), the reserve is untouched otherwise, and when the reserve cannot
cover the shortfall the whole call returns `none` — i.e. reverts with no state
change. -/
theorem c2_payout_amount_and_reserve :
    (∀ (now month : Nat) (w w' : World) (r amt : Nat),
      executePayout now month w = some (w', r, amt) →
      amt = w.circle.monthlyContribution * (100 - w.circle.reservePercentage) / 100
          * getActiveParticipantCount w.circle
      ∧ (w.circle.poolBalance < amt →
          w'.pool.totalWithdrawn = w.pool.totalWithdrawn + (amt - w.circle.poolBalance)
          ∧ w'.pool.currentBalance = w.pool.currentBalance - (amt - w.circle.poolBalance)
          ∧ amt - w.circle.poolBalance ≤ w.pool.currentBalance)
      ∧ (¬ w.circle.poolBalance < amt → w'.pool = w.pool))
    ∧ (∀ (now month : Nat) (w : World),
        w.circle.poolBalance < expectedPayoutAmount w.circle →
        w.pool.currentBalance < expectedPayoutAmount w.circle - w.circle.poolBalance →
        executePayout now month w = none) := by
  constructor
  · intro now month w w' r amt h
    obtain ⟨-, -, hamt, hshort, hsame⟩ := executePayout_success now month w w' r amt h
    refine ⟨hamt, ?_, hsame⟩
    intro hlt
    obtain ⟨ht, hc, hle, -, -⟩ :=
      withdraw_some_spec w.pool w'.pool w.circleAddr (amt - w.circle.poolBalance) w.circleAddr
        (hshort hlt)
    exact ⟨ht, hc, hle⟩
  · exact executePayout_reserve_insufficient

/-- Concrete instantiation of C2: a circle with `monthlyContribution = 10`,
`reservePercentage = 0`, two active participants and `poolBalance = 5` pays
out exactly 20, pulling the shortfall 15 from the reserve; the same call with
only 10 in the reserve reverts. -/
theorem c2_payout_amount_and_reserve_witness :
    executePayout 100 0 worldC2 = some (c2w, 2, 20)
    ∧ (20 : Nat) = worldC2.circle.monthlyContribution
        * (100 - worldC2.circle.reservePercentage) / 100
        * getActiveParticipantCount worldC2.circle
    ∧ worldC2s.circle.poolBalance < expectedPayoutAmount worldC2s.circle
    ∧ worldC2s.pool.currentBalance
        < expectedPayoutAmount worldC2s.circle - worldC2s.circle.poolBalance
    ∧ executePayout 100 0 worldC2s = none :=
  ⟨by rfl,
   (c2_payout_amount_and_reserve.1 100 0 worldC2 c2w 2 20 (by rfl)).1,
   by decide, by decide,
   c2_payout_amount_and_reserve.2 100 0 worldC2s (by decide) (by decide)⟩

/-! ## C8 — defaults are permanent and exclude from payout -/
/-- C8: once `recordDefault` has run for an address, the ledger flag
`hasDefaulted` remains true after any further sequence of ledger operations;
and no successful `executePayout` ever selects a recipient whose circle-level
`isInDefault` flag is set (the selection scan skips such candidates and the
guard re-checks the winner). -/
theorem c8_default_permanent_and_excluded :
    (∀ (reg : CreditRegistry) (a : Nat) (ops : List RegOp),
      ((applyRegOps (reg.recordDefault a) ops).creditProfiles a).hasDefaulted = true)
    ∧ (∀ (now month : Nat) (w w' : World) (r amt : Nat),
        executePayout now month w = some (w', r, amt) →
        (w.circle.participants r).isInDefault = false) := by
  constructor
  · intro reg a ops
    exact (applyRegOps_preserves_default ops _ a (recordDefault_establishes reg a)).2
  · intro now month w w' r amt h
    exact (executePayout_success now month w w' r amt h).2.1

/-- Concrete instantiation of C8's second part: the winner of the concrete
successful payout is not in default; the first part is instantiated on a
default followed by an on-time payment and a completion bonus. -/
theorem c8_default_permanent_and_excluded_witness :
    ((applyRegOps (CreditRegistry.init.recordDefault 4) [RegOp.onTime 4, RegOp.completion 4]
      ).creditProfiles 4).hasDefaulted = true
    ∧ executePayout 100 0 worldC2 = some (c2w, 2, 20)
    ∧ (worldC2.circle.participants 2).isInDefault = false :=
  ⟨c8_default_permanent_and_excluded.1 CreditRegistry.init 4 [RegOp.onTime 4, RegOp.completion 4],
   by rfl,
   c8_default_permanent_and_excluded.2 100 0 worldC2 c2w 2 20 (by rfl)⟩

/-! ## C9 — all-zero candidates make executePayout revert -/
theorem selectWinnerAux_zero (reg : CreditRegistry) (c : Circle) (prop : PayoutProposal) :
    ∀ l : List Nat,
      (∀ a ∈ l, candEligible c prop a = true →
        (prop.candidates a).totalVotes = 0 ∧ reg.getCreditScore a = 0) →
      selectWinnerAux reg c prop l (0, 0, 0) = (0, 0, 0)
  | [], _ => rfl
  | a :: rest, hall => by
      have hrest : ∀ b ∈ rest, candEligible c prop b = true →
          (prop.candidates b).totalVotes = 0 ∧ reg.getCreditScore b = 0 :=
        fun b hb => hall b (List.mem_cons_of_mem a hb)
      unfold selectWinnerAux
      by_cases he : candEligible c prop a = true
      · obtain ⟨hv, hs⟩ := hall a (List.mem_cons_self a rest) he
        rw [if_pos he]
        dsimp only
        rw [hv, hs]
        rw [if_neg (by omega)]
        exact selectWinnerAux_zero reg c prop rest hrest
      · rw [if_neg he]
        exact selectWinnerAux_zero reg c prop rest hrest

theorem selectWinner_zero (reg : CreditRegistry) (c : Circle) (month : Nat)
    (hall : ∀ a ∈ (c.payoutProposals month).candidateList,
      candEligible c (c.payoutProposals month) a = true →
      ((c.payoutProposals month).candidates a).totalVotes = 0
        ∧ reg.getCreditScore a = 0) :
    selectWinner reg c month = 0 := by
  unfold selectWinner
  dsimp only
  split
  · rfl
  · rw [selectWinnerAux_zero reg c (c.payoutProposals month)
      (c.payoutProposals month).candidateList hall]

/-- C9: whenever every still-eligible proposed candidate for the month has
`totalVotes = 0` and current credit score 0, the winner scan returns the null
address — its running best starts at (no candidate, 0 votes, 0 credit) and is
only replaced on strict lexicographic improvement — and `executePayout`
reverts with `No valid winner`, even though an eligible candidate remains. -/
theorem c9_zero_candidates_revert (now month : Nat) (w : World)
    (hall : ∀ a ∈ (w.circle.payoutProposals month).candidateList,
      candEligible w.circle (w.circle.payoutProposals month) a = true →
      ((w.circle.payoutProposals month).candidates a).totalVotes = 0
        ∧ w.registry.getCreditScore a = 0) :
    selectWinner w.registry w.circle month = 0 ∧ executePayout now month w = none := by
  have hsel := selectWinner_zero w.registry w.circle month hall
  refine ⟨hsel, ?_⟩
  unfold executePayout
  dsimp only
  rw [hsel]
  simp

/-- Concrete instantiation of C9, on a state *reached by running the model
operations*: create a circle (creator 1), participant 2 joins and is approved
(activating the circle), the coordinator records 15 late payments for
participant 2 (credit 300 → 0), participant 1 proposes participant 2, nobody
votes; after the voting deadline the candidate is still eligible yet
`executePayout` reverts. -/
theorem c9_zero_candidates_revert_witness :
    w9_4 = some w9c
    ∧ (w9c.circle.payoutProposals 0).candidateList = [2]
    ∧ candEligible w9c.circle (w9c.circle.payoutProposals 0) 2 = true
    ∧ ((w9c.circle.payoutProposals 0).candidates 2).totalVotes = 0
    ∧ w9c.registry.getCreditScore 2 = 0
    ∧ selectWinner w9c.registry w9c.circle 0 = 0
    ∧ executePayout 700000 0 w9c = none := by
  have h := c9_zero_candidates_revert 700000 0 w9c (by decide)
  exact ⟨by rfl, by rfl, by rfl, by rfl, by rfl, h.1, h.2⟩

/-! ## C3 — excess distribution -/
theorem creditStep_other (perP : Nat) (ps : Nat → Participant) (a b : Nat) (hab : b ≠ a) :
    creditStep perP ps a b = ps b := by
  unfold creditStep
  split
  · exact fupd_other _ _ _ _ hab
  · rfl

theorem foldl_creditStep_not_mem (perP : Nat) :
    ∀ (l : List Nat) (ps : Nat → Participant) (b : Nat), b ∉ l →
      l.foldl (creditStep perP) ps b = ps b
  | [], ps, b, _ => rfl
  | a :: rest, ps, b, hb => by
      have hba : b ≠ a := fun h => hb (h ▸ List.mem_cons_self a rest)
      have hbr : b ∉ rest := fun h => hb (List.mem_cons_of_mem a h)
      rw [List.foldl_cons, foldl_creditStep_not_mem perP rest _ b hbr]
      exact creditStep_other perP ps a b hba

theorem foldl_creditStep_mem (perP : Nat) :
    ∀ (l : List Nat) (ps : Nat → Participant) (b : Nat), b ∈ l → l.Nodup →
      l.foldl (creditStep perP) ps b =
        if (ps b).isActive && !(ps b).isInDefault then
          { ps b with withdrawableBalance := (ps b).withdrawableBalance + perP }
        else ps b
  | [], _, b, hb, _ => absurd hb (List.not_mem_nil b)
  | a :: rest, ps, b, hb, hnd => by
      obtain ⟨hna, hndr⟩ := List.nodup_cons.mp hnd
      rw [List.foldl_cons]
      rcases List.mem_cons.mp hb with hba | hbr
      · subst hba
        rw [foldl_creditStep_not_mem perP rest _ b hna]
        unfold creditStep
        split
        · rw [fupd_same]
        · rfl
      · have hba : b ≠ a := fun h => hna (h ▸ hbr)
        rw [foldl_creditStep_mem perP rest _ b hbr hndr,
          creditStep_other perP ps a b hba]

/-- C3 (amended): when the pool after a payout exceeds the expected total by
`E > 0` and there are `N ≠ 0` eligible participants (the participant list
having no duplicates), `_distributeExcess` credits exactly `E / N` (floor) to
every listed active non-defaulted participant — but it subtracts the *whole*
excess `E` from `poolBalance`, leaving it at exactly the expected total: the
remainder `E % N` is neither distributed nor kept in `poolBalance`. -/
theorem c3_excess_distribution (c : Circle) (month E : Nat)
    (hN : getActiveParticipantCount c ≠ 0)
    (hpb : c.poolBalance = expectedPayoutAmount c + E)
    (hE : 0 < E)
    (hnd : c.participantList.Nodup) :
    (distributeExcess c month).poolBalance = expectedPayoutAmount c
    ∧ ∀ a ∈ c.participantList,
        (c.participants a).isActive = true → (c.participants a).isInDefault = false →
        ((distributeExcess c month).participants a).withdrawableBalance
          = (c.participants a).withdrawableBalance + E / getActiveParticipantCount c := by
  unfold distributeExcess
  dsimp only
  rw [show c.monthlyContribution * (100 - c.reservePercentage) / 100
      * getActiveParticipantCount c = expectedPayoutAmount c from rfl]
  have hgt : expectedPayoutAmount c < c.poolBalance := by omega
  rw [if_neg hN, if_pos hgt]
  have hexcess : c.poolBalance - expectedPayoutAmount c = E := by omega
  rw [hexcess]
  constructor
  · dsimp only
    omega
  · intro a ha hact hdef
    dsimp only
    rw [foldl_creditStep_mem (E / getActiveParticipantCount c) c.participantList
      c.participants a ha hnd]
    rw [if_pos]
    · simp [hact, hdef]

/-- Concrete instantiation of C3 (amended): pool 25, expected 20, excess 5,
two eligible participants, each credited 5 / 2 = 2. -/
theorem c3_excess_distribution_witness :
    (getActiveParticipantCount circC3 ≠ 0
      ∧ circC3.poolBalance = expectedPayoutAmount circC3 + 5
      ∧ (0 : Nat) < 5
      ∧ circC3.participantList.Nodup)
    ∧ (distributeExcess circC3 0).poolBalance = expectedPayoutAmount circC3
    ∧ ((distributeExcess circC3 0).participants 1).withdrawableBalance
        = (circC3.participants 1).withdrawableBalance + 5 / getActiveParticipantCount circC3 := by
  have h := c3_excess_distribution circC3 0 5 (by decide) (by decide) (by decide) (by decide)
  exact ⟨⟨by decide, by decide, by decide, by decide⟩, h.1,
    h.2 1 (by decide) (by decide) (by decide)⟩

/-- C3 counterexample: with excess `E = 5` over `N = 2` eligible participants,
each receives 2 but the final `poolBalance` is the bare expected total 20, not
`20 + (5 % 2) = 21`: the remainder does *not* stay in `poolBalance` as the
claim states — it is dropped from the tracked balance altogether. -/
theorem c3_remainder_counterexample :
    getActiveParticipantCount circC3 = 2
    ∧ circC3.poolBalance = expectedPayoutAmount circC3 + 5
    ∧ ((distributeExcess circC3 0).participants 1).withdrawableBalance = 2
    ∧ ((distributeExcess circC3 0).participants 2).withdrawableBalance = 2
    ∧ (distributeExcess circC3 0).poolBalance = 20
    ∧ ¬ (distributeExcess circC3 0).poolBalance = expectedPayoutAmount circC3 + 5 % 2 := by
  exact ⟨by decide, by decide, by decide, by decide, by decide, by decide⟩

theorem lexGt_irrefl (p : Nat × Nat) : ¬ lexGt p p := by
  obtain ⟨p1, p2⟩ := p
  unfold lexGt
  dsimp only
  omega

theorem not_lexGt_trans (p q r : Nat × Nat) (h1 : ¬ lexGt p q) (h2 : ¬ lexGt q r) :
    ¬ lexGt p r := by
  obtain ⟨p1, p2⟩ := p
  obtain ⟨q1, q2⟩ := q
  obtain ⟨r1, r2⟩ := r
  unfold lexGt at h1 h2 ⊢
  dsimp only at h1 h2 ⊢
  omega

theorem not_lexGt_of_lexGt (p q r : Nat × Nat) (h1 : lexGt p q) (h2 : ¬ lexGt p r) :
    ¬ lexGt q r := by
  obtain ⟨p1, p2⟩ := p
  obtain ⟨q1, q2⟩ := q
  obtain ⟨r1, r2⟩ := r
  unfold lexGt at h1 h2 ⊢
  dsimp only at h1 h2 ⊢
  omega

theorem lexGt_of_ge (p r : Nat × Nat) (h1 : lexGt p (0, 0)) (h2 : ¬ lexGt p r) :
    lexGt r (0, 0) := by
  obtain ⟨p1, p2⟩ := p
  obtain ⟨r1, r2⟩ := r
  unfold lexGt at h1 h2 ⊢
  dsimp only at h1 h2 ⊢
  omega

theorem eq_zero_of_not_lexGt (q : Nat × Nat) (h : ¬ lexGt q (0, 0)) : q = (0, 0) := by
  obtain ⟨q1, q2⟩ := q
  unfold lexGt at h
  dsimp only at h
  have h1 : q1 = 0 := by omega
  have h2 : q2 = 0 := by omega
  rw [h1, h2]

theorem lexGt_trans (p q r : Nat × Nat) (h1 : lexGt p q) (h2 : lexGt q r) : lexGt p r := by
  obtain ⟨p1, p2⟩ := p
  obtain ⟨q1, q2⟩ := q
  obtain ⟨r1, r2⟩ := r
  unfold lexGt at h1 h2 ⊢
  dsimp only at h1 h2 ⊢
  omega

theorem selAux_rel (reg : CreditRegistry) (c : Circle) (prop : PayoutProposal) :
    ∀ (l : List Nat) (sb : Option Nat) (st : Nat × Nat × Nat),
      selRel reg prop sb st →
      selRel reg prop (selectWinnerSpecAux reg c prop l sb) (selectWinnerAux reg c prop l st)
  | [], sb, st, h => h
  | a :: rest, sb, st, h => by
      obtain ⟨bA, bV, bC⟩ := st
      by_cases he : candEligible c prop a = true
      · cases sb with
        | none =>
            have h' : (bA, bV, bC) = ((0 : Nat), (0 : Nat), (0 : Nat)) := h
            simp only [Prod.mk.injEq] at h'
            obtain ⟨h1, h2, h3⟩ := h'
            subst h1
            subst h2
            subst h3
            simp only [selectWinnerSpecAux, selectWinnerAux]
            rw [if_pos he, if_pos he]
            by_cases ht : lexGt (candKey reg prop a) (0, 0)
            · have ht' : (prop.candidates a).totalVotes > 0
                  ∨ ((prop.candidates a).totalVotes = 0 ∧ reg.getCreditScore a > 0) := ht
              rw [if_pos ht']
              exact selAux_rel reg c prop rest (some a) _ (Or.inl ⟨ht, rfl⟩)
            · have ht' : ¬ ((prop.candidates a).totalVotes > 0
                  ∨ ((prop.candidates a).totalVotes = 0 ∧ reg.getCreditScore a > 0)) := ht
              rw [if_neg ht']
              exact selAux_rel reg c prop rest (some a) _ (Or.inr ⟨ht, rfl⟩)
        | some b =>
            have h' : (lexGt (candKey reg prop b) (0, 0)
                  ∧ (bA, bV, bC) = (b, candKey reg prop b))
                ∨ (¬ lexGt (candKey reg prop b) (0, 0) ∧ (bA, bV, bC) = (0, 0, 0)) := h
            rcases h' with ⟨hb, hst⟩ | ⟨hnb, hst⟩
            · simp only [Prod.mk.injEq, candKey] at hst
              obtain ⟨h1, h2, h3⟩ := hst
              subst bA
              subst bV
              subst bC
              simp only [selectWinnerSpecAux, selectWinnerAux]
              rw [if_pos he, if_pos he]
              by_cases ht : lexGt (candKey reg prop a) (candKey reg prop b)
              · have ht' : (prop.candidates a).totalVotes > (prop.candidates b).totalVotes
                    ∨ ((prop.candidates a).totalVotes = (prop.candidates b).totalVotes
                        ∧ reg.getCreditScore a > reg.getCreditScore b) := ht
                rw [if_pos ht, if_pos ht']
                exact selAux_rel reg c prop rest (some a) _
                  (Or.inl ⟨lexGt_trans _ _ _ ht hb, rfl⟩)
              · have ht' : ¬ ((prop.candidates a).totalVotes > (prop.candidates b).totalVotes
                    ∨ ((prop.candidates a).totalVotes = (prop.candidates b).totalVotes
                        ∧ reg.getCreditScore a > reg.getCreditScore b)) := ht
                rw [if_neg ht, if_neg ht']
                exact selAux_rel reg c prop rest (some b) _ (Or.inl ⟨hb, rfl⟩)
            · simp only [Prod.mk.injEq] at hst
              obtain ⟨h1, h2, h3⟩ := hst
              subst h1
              subst h2
              subst h3
              simp only [selectWinnerSpecAux, selectWinnerAux]
              rw [if_pos he, if_pos he]
              rw [eq_zero_of_not_lexGt _ hnb]
              by_cases ht : lexGt (candKey reg prop a) (0, 0)
              · have ht' : (prop.candidates a).totalVotes > 0
                    ∨ ((prop.candidates a).totalVotes = 0 ∧ reg.getCreditScore a > 0) := ht
                rw [if_pos ht, if_pos ht']
                exact selAux_rel reg c prop rest (some a) _ (Or.inl ⟨ht, rfl⟩)
              · have ht' : ¬ ((prop.candidates a).totalVotes > 0
                    ∨ ((prop.candidates a).totalVotes = 0 ∧ reg.getCreditScore a > 0)) := ht
                rw [if_neg ht, if_neg ht']
                exact selAux_rel reg c prop rest (some b) _ (Or.inr ⟨hnb, rfl⟩)
      · simp only [selectWinnerSpecAux, selectWinnerAux]
        rw [if_neg he, if_neg he]
        exact selAux_rel reg c prop rest sb _ h

theorem selSpecAux_acc (reg : CreditRegistry) (c : Circle) (prop : PayoutProposal) :
    ∀ (l : List Nat) (m : Nat),
      ∃ r, selectWinnerSpecAux reg c prop l (some m) = some r
        ∧ ¬ lexGt (candKey reg prop m) (candKey reg prop r)
  | [], m => ⟨m, rfl, lexGt_irrefl _⟩
  | a :: rest, m => by
      by_cases he : candEligible c prop a = true
      · simp only [selectWinnerSpecAux]
        rw [if_pos he]
        by_cases ht : lexGt (candKey reg prop a) (candKey reg prop m)
        · rw [if_pos ht]
          obtain ⟨r, hr, hd⟩ := selSpecAux_acc reg c prop rest a
          exact ⟨r, hr, not_lexGt_of_lexGt _ _ _ ht hd⟩
        · rw [if_neg ht]
          exact selSpecAux_acc reg c prop rest m
      · simp only [selectWinnerSpecAux]
        rw [if_neg he]
        exact selSpecAux_acc reg c prop rest m

theorem selSpecAux_dominates (reg : CreditRegistry) (c : Circle) (prop : PayoutProposal) :
    ∀ (l : List Nat) (sb : Option Nat) (x : Nat), x ∈ l → candEligible c prop x = true →
      ∃ r, selectWinnerSpecAux reg c prop l sb = some r
        ∧ ¬ lexGt (candKey reg prop x) (candKey reg prop r)
  | [], _, x, hx, _ => absurd hx (List.not_mem_nil x)
  | a :: rest, sb, x, hx, hex => by
      rcases List.mem_cons.mp hx with hxa | hxr
      · subst a
        simp only [selectWinnerSpecAux]
        rw [if_pos hex]
        cases sb with
        | none => exact selSpecAux_acc reg c prop rest x
        | some b =>
            dsimp only
            by_cases ht : lexGt (candKey reg prop x) (candKey reg prop b)
            · rw [if_pos ht]
              exact selSpecAux_acc reg c prop rest x
            · rw [if_neg ht]
              obtain ⟨r, hr, hd⟩ := selSpecAux_acc reg c prop rest b
              exact ⟨r, hr, not_lexGt_trans _ _ _ ht hd⟩
      · by_cases he : candEligible c prop a = true
        · simp only [selectWinnerSpecAux]
          rw [if_pos he]
          cases sb with
          | none => exact selSpecAux_dominates reg c prop rest (some a) x hxr hex
          | some b =>
              dsimp only
              by_cases ht : lexGt (candKey reg prop a) (candKey reg prop b)
              · rw [if_pos ht]
                exact selSpecAux_dominates reg c prop rest (some a) x hxr hex
              · rw [if_neg ht]
                exact selSpecAux_dominates reg c prop rest (some b) x hxr hex
        · simp only [selectWinnerSpecAux]
          rw [if_neg he]
          exact selSpecAux_dominates reg c prop rest sb x hxr hex

/-- C1 (amended): whenever at least one eligible proposed candidate has a
(votes, credit) key lexicographically above (0, 0), `_selectWinner` returns
exactly the candidate described by the spec — the one with the strictly
highest `totalVotes`, ties broken by strictly higher current credit score,
remaining ties by earliest position in proposal order.  (Without that proviso
the scan's zero-initialised running best swallows an all-zero field and the
source returns the null address instead; see the counterexample.) -/
theorem c1_selectWinner_refines_spec (reg : CreditRegistry) (c : Circle) (month : Nat)
    (h : ∃ x ∈ (c.payoutProposals month).candidateList,
      candEligible c (c.payoutProposals month) x = true
        ∧ lexGt (candKey reg (c.payoutProposals month) x) (0, 0)) :
    selectWinnerSpec reg c month = some (selectWinner reg c month) := by
  obtain ⟨x, hx, hex, hkey⟩ := h
  have hne : ¬ (c.payoutProposals month).candidateList = [] := by
    intro hnil
    rw [hnil] at hx
    exact absurd hx (List.not_mem_nil x)
  obtain ⟨r, hspec, hdom⟩ :=
    selSpecAux_dominates reg c (c.payoutProposals month)
      (c.payoutProposals month).candidateList none x hx hex
  have hr0 : lexGt (candKey reg (c.payoutProposals month) r) (0, 0) :=
    lexGt_of_ge _ _ hkey hdom
  have hrel := selAux_rel reg c (c.payoutProposals month)
    (c.payoutProposals month).candidateList none (0, 0, 0) rfl
  rw [hspec] at hrel
  have hrel' : (lexGt (candKey reg (c.payoutProposals month) r) (0, 0)
        ∧ selectWinnerAux reg c (c.payoutProposals month)
            (c.payoutProposals month).candidateList (0, 0, 0)
          = (r, candKey reg (c.payoutProposals month) r))
      ∨ (¬ lexGt (candKey reg (c.payoutProposals month) r) (0, 0)
        ∧ selectWinnerAux reg c (c.payoutProposals month)
            (c.payoutProposals month).candidateList (0, 0, 0) = (0, 0, 0)) := hrel
  rcases hrel' with ⟨-, hst⟩ | ⟨hnr, -⟩
  · unfold selectWinnerSpec selectWinner
    dsimp only
    rw [if_neg hne, hst, hspec]
  · exact absurd hr0 hnr

/-- Concrete instantiation of C1 (amended) on the spec's own examples: with
votes {A:10, B:10} and credit scores {A:400, B:500} candidate B (address 2)
wins the tie on credit; with votes {A:10, B:8} candidate A (address 1) wins
regardless of scores. -/
theorem c1_selectWinner_refines_spec_witness :
    (1 ∈ ((circAB 10 10).payoutProposals 0).candidateList
      ∧ candEligible (circAB 10 10) ((circAB 10 10).payoutProposals 0) 1 = true
      ∧ lexGt (candKey reg45 ((circAB 10 10).payoutProposals 0) 1) (0, 0))
    ∧ selectWinnerSpec reg45 (circAB 10 10) 0 = some (selectWinner reg45 (circAB 10 10) 0)
    ∧ selectWinner reg45 (circAB 10 10) 0 = 2
    ∧ selectWinnerSpec reg45 (circAB 10 8) 0 = some (selectWinner reg45 (circAB 10 8) 0)
    ∧ selectWinner reg45 (circAB 10 8) 0 = 1 := by
  refine ⟨⟨by decide, by decide, by decide⟩, ?_, by decide, ?_, by decide⟩
  · exact c1_selectWinner_refines_spec reg45 (circAB 10 10) 0
      ⟨1, by decide, by decide, by decide⟩
  · exact c1_selectWinner_refines_spec reg45 (circAB 10 8) 0
      ⟨1, by decide, by decide, by decide⟩

/-- C1 counterexample: the month's only proposed candidate (address 2) is
eligible — so it trivially has the strictly highest `totalVotes` among
eligible candidates and, per the claim, should be selected — but its votes and
credit score are both 0, so `_selectWinner` returns the null address and
`executePayout` reverts instead of paying it. -/
theorem c1_zero_key_counterexample :
    (circ2only.payoutProposals 0).candidateList = [2]
    ∧ candEligible circ2only (circ2only.payoutProposals 0) 2 = true
    ∧ ((circ2only.payoutProposals 0).candidates 2).totalVotes = 0
    ∧ regZero2.getCreditScore 2 = 0
    ∧ selectWinner regZero2 circ2only 0 = 0
    ∧ ¬ selectWinner regZero2 circ2only 0 = 2
    ∧ executePayout 100 0 world2only = none :=
  ⟨by rfl, by rfl, by rfl, by rfl, by rfl, by decide, by rfl⟩

end CircleLendo

